import Mathlib

set_option maxHeartbeats 1000000
set_option maxRecDepth 4000

/-
Verification of the link-guardian core against its source:
the link classifier and verifier (src/checker/http.rs), the HTML link
extractor (src/checker/html.rs) and the crawl frontier (src/crawl/queue.rs).
External collaborators (the HTTP transport, the scraper HTML parser and the
url crate) are modelled as parameters of the embedding; a small executable
instance of them is provided for concrete runs.
-/

/-- Rust str starts_with over the character lists of the strings:
true iff the second list is an initial segment of the first. -/
def charsLeadWith : List Char → List Char → Bool
  | _, [] => true
  | [], _ :: _ => false
  | c :: s, p :: ps => c == p && charsLeadWith s ps

/-- Rust str starts_with (String.startsWith, re-implemented by structural
recursion so that concrete runs reduce in the kernel). -/
def strStarts (s pat : String) : Bool :=
  charsLeadWith s.data pat.data

/-- Occurrence of a pattern as a substring of a character list. -/
def charsContain : List Char → List Char → Bool
  | [], pat => pat.isEmpty
  | c :: s, pat => charsLeadWith (c :: s) pat || charsContain s pat

/-- Rust str contains: true iff pat occurs as a substring of hay.
All patterns used by the source ("dns", "certificate", "ssl") are
nonempty literals. -/
def containsSubstr (hay pat : String) : Bool :=
  charsContain hay.data pat.data

/-- LinkStatus from src/checker/http.rs. -/
inductive LinkStatus where
  | Ok
  | Redirect (target : String)
  | Broken
  | Timeout
  | SslError
  | TooManyRedirects
  | DnsError
  | Error
  deriving DecidableEq

/-- LinkCheckResult from src/checker/http.rs. -/
structure LinkCheckResult where
  url : String
  status : LinkStatus
  message : Option String
  deriving DecidableEq

/-- A transport-level failure as categorize_error observes it: the three
reqwest category flags is_timeout(), is_redirect(), is_connect(), and the
free-text description error.to_string(). -/
structure ReqError where
  is_timeout : Bool
  is_redirect : Bool
  is_connect : Bool
  description : String
  deriving DecidableEq

/-- analyze_response from src/checker/http.rs.  The response is represented
by its status code and by the Location header exactly as the code reads it:
some v when the header is present and representable as a str, none
otherwise. -/
def analyze_response (url : String) (status_code : Nat) (location : Option String) :
    LinkCheckResult :=
  if 200 ≤ status_code ∧ status_code ≤ 299 then
    { url := url, status := LinkStatus.Ok,
      message := some ("HTTP " ++ toString status_code) }
  else if 300 ≤ status_code ∧ status_code ≤ 399 then
    let redirect_target := location.getD "unknown"
    { url := url, status := LinkStatus.Redirect redirect_target,
      message := some ("HTTP " ++ toString status_code ++ " -> " ++ redirect_target) }
  else if status_code = 404 ∨ status_code = 410 then
    { url := url, status := LinkStatus.Broken,
      message := some ("HTTP " ++ toString status_code) }
  else
    { url := url, status := LinkStatus.Error,
      message := some ("HTTP " ++ toString status_code) }

/-- categorize_error from src/checker/http.rs. -/
def categorize_error (url : String) (error : ReqError) : LinkCheckResult :=
  let error_string := error.description
  let p :=
    if error.is_timeout then
      (LinkStatus.Timeout, "Request timed out")
    else if error.is_redirect then
      (LinkStatus.TooManyRedirects, "Too many redirects")
    else if error.is_connect then
      if containsSubstr error_string "dns" then
        (LinkStatus.DnsError, "Could not resolve hostname")
      else
        (LinkStatus.Error, "Connection failed")
    else if containsSubstr error_string "certificate" || containsSubstr error_string "ssl" then
      (LinkStatus.SslError, "SSL certificate error")
    else
      (LinkStatus.Error, error_string)
  { url := url, status := p.1, message := some p.2 }

/-- The transport outcome of the HEAD probe for one URL: either a completed
response (status code and Location header) or a request error. -/
inductive NetOutcome where
  | response (status_code : Nat) (location : Option String)
  | failure (error : ReqError)

/-- check_single_link from src/checker/http.rs, over a network oracle
assigning each URL the outcome of its HEAD request. -/
def check_single_link (net : String → NetOutcome) (url : String) : LinkCheckResult :=
  match net url with
  | NetOutcome.response code loc => analyze_response url code loc
  | NetOutcome.failure e => categorize_error url e

/-- check_links from src/checker/http.rs: one check_single_link call per
input URL.  buffer_unordered(50) bounds concurrency and may deliver the
results in any completion order; the model fixes the submission order,
which represents the real output up to permutation. -/
def check_links (net : String → NetOutcome) (urls : List String) : List LinkCheckResult :=
  urls.map (check_single_link net)

/-- C1: analyze_response maps a completed response to a LinkStatus exactly
as specified: a 2xx code yields Ok; a 3xx code yields Redirect of the
Location header value, or the literal "unknown" when it is absent or not
representable; 404 and 410 yield Broken; every other code yields Error.
In particular 200 yields Ok, 301 with Location https://x yields
Redirect "https://x", 404 yields Broken and 503 yields Error. -/
theorem analyze_response_classification (url : String) (code : Nat) (loc : Option String) :
    (200 ≤ code → code ≤ 299 → (analyze_response url code loc).status = LinkStatus.Ok) ∧
    (300 ≤ code → code ≤ 399 →
      (analyze_response url code loc).status = LinkStatus.Redirect (loc.getD "unknown")) ∧
    (code = 404 ∨ code = 410 → (analyze_response url code loc).status = LinkStatus.Broken) ∧
    (¬(200 ≤ code ∧ code ≤ 299) → ¬(300 ≤ code ∧ code ≤ 399) → code ≠ 404 → code ≠ 410 →
      (analyze_response url code loc).status = LinkStatus.Error) ∧
    (analyze_response url 200 loc).status = LinkStatus.Ok ∧
    (analyze_response url 301 (some "https://x")).status = LinkStatus.Redirect "https://x" ∧
    (analyze_response url 404 loc).status = LinkStatus.Broken ∧
    (analyze_response url 503 loc).status = LinkStatus.Error := by
  refine ⟨?_, ?_, ?_, ?_, ?_, ?_, ?_, ?_⟩
  · intro h1 h2
    unfold analyze_response
    rw [if_pos ⟨h1, h2⟩]
  · intro h1 h2
    unfold analyze_response
    rw [if_neg (by omega), if_pos ⟨h1, h2⟩]
  · rintro (rfl | rfl)
    · unfold analyze_response
      rw [if_neg (by omega), if_neg (by omega), if_pos (Or.inl rfl)]
    · unfold analyze_response
      rw [if_neg (by omega), if_neg (by omega), if_pos (Or.inr rfl)]
  · intro h1 h2 h3 h4
    unfold analyze_response
    rw [if_neg h1, if_neg h2, if_neg (fun h => h.elim h3 h4)]
  · unfold analyze_response
    rw [if_pos (by omega)]
  · unfold analyze_response
    rw [if_neg (by omega), if_pos (by omega)]
    rfl
  · unfold analyze_response
    rw [if_neg (by omega), if_neg (by omega), if_pos (Or.inl rfl)]
  · unfold analyze_response
    rw [if_neg (by omega), if_neg (by omega), if_neg (by omega)]

/-- Witness for C1 at concrete inputs. -/
theorem analyze_response_classification_witness :
    (analyze_response "https://a" 204 none).status = LinkStatus.Ok ∧
    (analyze_response "https://a" 307 (some "t")).status = LinkStatus.Redirect "t" ∧
    (analyze_response "https://a" 410 none).status = LinkStatus.Broken ∧
    (analyze_response "https://a" 418 none).status = LinkStatus.Error :=
  ⟨(analyze_response_classification "https://a" 204 none).1 (by decide) (by decide),
   (analyze_response_classification "https://a" 307 (some "t")).2.1 (by decide) (by decide),
   (analyze_response_classification "https://a" 410 none).2.2.1 (Or.inr rfl),
   (analyze_response_classification "https://a" 418 none).2.2.2.1
     (by decide) (by decide) (by decide) (by decide)⟩

/-- C2: categorize_error classifies a transport failure by this priority
order: timeout flag gives Timeout; otherwise redirect-loop flag gives
TooManyRedirects; otherwise connect flag with a description containing
"dns" gives DnsError; otherwise connect flag gives Error; otherwise a
description containing "certificate" or "ssl" gives SslError; otherwise
Error carrying the raw description as the message. -/
theorem categorize_error_priority (url : String) (e : ReqError) :
    (e.is_timeout = true → (categorize_error url e).status = LinkStatus.Timeout) ∧
    (e.is_timeout = false → e.is_redirect = true →
      (categorize_error url e).status = LinkStatus.TooManyRedirects) ∧
    (e.is_timeout = false → e.is_redirect = false → e.is_connect = true →
      containsSubstr e.description "dns" = true →
      (categorize_error url e).status = LinkStatus.DnsError) ∧
    (e.is_timeout = false → e.is_redirect = false → e.is_connect = true →
      containsSubstr e.description "dns" = false →
      (categorize_error url e).status = LinkStatus.Error) ∧
    (e.is_timeout = false → e.is_redirect = false → e.is_connect = false →
      (containsSubstr e.description "certificate" = true ∨
        containsSubstr e.description "ssl" = true) →
      (categorize_error url e).status = LinkStatus.SslError) ∧
    (e.is_timeout = false → e.is_redirect = false → e.is_connect = false →
      containsSubstr e.description "certificate" = false →
      containsSubstr e.description "ssl" = false →
      (categorize_error url e).status = LinkStatus.Error ∧
        (categorize_error url e).message = some e.description) := by
  refine ⟨?_, ?_, ?_, ?_, ?_, ?_⟩
  · intro h1
    simp [categorize_error, h1]
  · intro h1 h2
    simp [categorize_error, h1, h2]
  · intro h1 h2 h3 h4
    simp [categorize_error, h1, h2, h3, h4]
  · intro h1 h2 h3 h4
    simp [categorize_error, h1, h2, h3, h4]
  · intro h1 h2 h3 h4
    rcases h4 with h4 | h4 <;> simp [categorize_error, h1, h2, h3, h4]
  · intro h1 h2 h3 h4 h5
    refine ⟨?_, ?_⟩ <;> simp [categorize_error, h1, h2, h3, h4, h5]

/-- Witness for C2 at concrete inputs, one per priority branch. -/
theorem categorize_error_priority_witness :
    (categorize_error "u" ⟨true, true, true, "x"⟩).status = LinkStatus.Timeout ∧
    (categorize_error "u" ⟨false, true, true, "x"⟩).status = LinkStatus.TooManyRedirects ∧
    (categorize_error "u" ⟨false, false, true, "dns failure"⟩).status = LinkStatus.DnsError ∧
    (categorize_error "u" ⟨false, false, true, "refused"⟩).status = LinkStatus.Error ∧
    (categorize_error "u" ⟨false, false, false, "bad ssl cert"⟩).status = LinkStatus.SslError ∧
    (categorize_error "u" ⟨false, false, false, "weird"⟩).status = LinkStatus.Error ∧
    (categorize_error "u" ⟨false, false, false, "weird"⟩).message = some "weird" :=
  ⟨(categorize_error_priority "u" ⟨true, true, true, "x"⟩).1 rfl,
   (categorize_error_priority "u" ⟨false, true, true, "x"⟩).2.1 rfl rfl,
   (categorize_error_priority "u" ⟨false, false, true, "dns failure"⟩).2.2.1
     rfl rfl rfl (by decide),
   (categorize_error_priority "u" ⟨false, false, true, "refused"⟩).2.2.2.1
     rfl rfl rfl (by decide),
   (categorize_error_priority "u" ⟨false, false, false, "bad ssl cert"⟩).2.2.2.2.1
     rfl rfl rfl (Or.inr (by decide)),
   ((categorize_error_priority "u" ⟨false, false, false, "weird"⟩).2.2.2.2.2
     rfl rfl rfl (by decide) (by decide)).1,
   ((categorize_error_priority "u" ⟨false, false, false, "weird"⟩).2.2.2.2.2
     rfl rfl rfl (by decide) (by decide)).2⟩

/-- C3: check_links is total and produces exactly one LinkCheckResult per
input URL, whatever the transport outcomes are: the url fields of the
output are a permutation of the input list (here equal to it, since the
model fixes the completion order), so no URL is dropped, duplicates are
kept, and every failure is a LinkStatus in a result, never a propagated
error. -/
theorem check_links_one_result_per_url (net : String → NetOutcome) (urls : List String) :
    ((check_links net urls).map (fun r => r.url)).Perm urls ∧
    (check_links net urls).length = urls.length := by
  have hurl : ∀ url, (check_single_link net url).url = url := by
    intro url
    unfold check_single_link
    cases net url with
    | response code loc =>
      simp only [analyze_response]
      split_ifs <;> rfl
    | failure e => rfl
  have hmap : (check_links net urls).map (fun r => r.url) = urls := by
    unfold check_links
    rw [List.map_map]
    exact List.map_id'' hurl urls
  refine ⟨?_, ?_⟩
  · rw [hmap]
  · simp [check_links]

/-- Model of a url crate Url value as the repository reads it: the scheme,
the domain (none for schemes such as mailto that have no host), and the
serialized remainder after the authority (path, query and fragment). -/
structure MUrl where
  scheme : String
  domain : Option String
  tail : String
  deriving DecidableEq

/-- Interface to the external collaborators called by the crawl and
extraction code: page fetching (none models a fetch_page error, including a
non-2xx response), the scraper extraction of the href attributes of a[href]
elements in document order, and the url crate operations Url::parse,
Url::join and Url::to_string. -/
structure WebEnv where
  fetch : String → Option String
  hrefs : String → List String
  parse : String → Option MUrl
  join : MUrl → String → Option MUrl
  toStr : MUrl → String

/-- resolve_link from src/crawl/queue.rs: skip anchors and special
protocols, otherwise join against the base and serialize. -/
def resolve_link (E : WebEnv) (base : MUrl) (href : String) : Option String :=
  if strStarts href "#" || strStarts href "mailto:" || strStarts href "tel:"
      || strStarts href "javascript:" then
    none
  else
    (E.join base href).map E.toStr

/-- extract_same_domain_links from src/crawl/queue.rs: resolve each href,
keep it only if it parses with scheme http or https and with a domain equal
to base_domain by exact string match. -/
def extract_same_domain_links (E : WebEnv) (html page_url base_domain : String) :
    List String :=
  match E.parse page_url with
  | none => []
  | some base =>
    (E.hrefs html).filterMap fun href =>
      (resolve_link E base href).bind fun absolute_url =>
        match E.parse absolute_url with
        | some parsed =>
          if (parsed.scheme = "http" ∨ parsed.scheme = "https")
              ∧ parsed.domain = some base_domain then
            some absolute_url
          else
            none
        | none => none

/-- is_checkable_link from src/checker/html.rs. -/
def is_checkable_link (url : String) : Bool :=
  strStarts url "http://" || strStarts url "https://"

/-- resolve_url from src/checker/html.rs: parse the href on its own; when
that fails, join it against the base. -/
def resolve_url (E : WebEnv) (base : MUrl) (href : String) : Option String :=
  match E.parse href with
  | some url => some (E.toStr url)
  | none =>
    match E.join base href with
    | some url => some (E.toStr url)
    | none => none

/-- extract_html_links from src/checker/html.rs. -/
def extract_html_links (E : WebEnv) (html base_url : String) : List String :=
  match E.parse base_url with
  | none => []
  | some base =>
    (E.hrefs html).filterMap fun href =>
      (resolve_url E base href).bind fun absolute_url =>
        if is_checkable_link absolute_url then some absolute_url else none

/-- CrawlItem from src/crawl/queue.rs. -/
structure CrawlItem where
  url : String
  depth : Nat
  deriving DecidableEq

/-- The loop state of crawl_website: the FIFO queue, the visited set (as a
list used by membership only), the result sequence and, as a ghost field
used only to state invariants, the sequence of items popped so far. -/
structure CrawlState where
  queue : List CrawlItem
  visited : List String
  results : List (String × String)
  trace : List CrawlItem
  deriving DecidableEq

/-- One iteration of the while-let loop of crawl_website
(src/crawl/queue.rs): pop the front item; skip it if visited; otherwise
mark it visited and fetch it; on success record the result and, when
depth < max_depth, enqueue the unvisited same-domain links at depth + 1;
on failure only warn.  On an empty queue this is the identity, so iterating
it models the loop for any sufficient fuel; the politeness delay and the
log lines do not touch the state and are omitted. -/
def crawl_step (E : WebEnv) (base_domain : String) (max_depth : Nat) :
    CrawlState → CrawlState
  | ⟨[], v, r, t⟩ => ⟨[], v, r, t⟩
  | ⟨item :: rest, v, r, t⟩ =>
    if item.url ∈ v then
      ⟨rest, v, r, t ++ [item]⟩
    else
      match E.fetch item.url with
      | some html =>
        let visited := item.url :: v
        ⟨(if item.depth < max_depth then
            rest ++ ((extract_same_domain_links E html item.url base_domain).filter
              (fun l => !(decide (l ∈ visited)))).map
              (fun l => ⟨l, item.depth + 1⟩)
          else rest),
         visited, r ++ [(item.url, html)], t ++ [item]⟩
      | none => ⟨rest, item.url :: v, r, t ++ [item]⟩

/-- The initial crawl state: the seed enqueued at depth 1 with the raw
start_url string. -/
def initState (start_url : String) : CrawlState :=
  { queue := [{ url := start_url, depth := 1 }], visited := [], results := [], trace := [] }

/-- crawl_website from src/crawl/queue.rs, fuel-indexed: validate the start
URL, extract the base domain, run the loop and return the results.  The
Rust loop corresponds to a sufficiently large fuel; every invariant below
holds at every fuel. -/
def crawl_website (E : WebEnv) (start_url : String) (max_depth : Nat) (fuel : Nat) :
    Except String (List (String × String)) :=
  match E.parse start_url with
  | none => Except.error ("Invalid URL " ++ start_url)
  | some start =>
    match start.domain with
    | none => Except.error ("URL has no domain: " ++ start_url)
    | some base_domain =>
      Except.ok ((crawl_step E base_domain max_depth)^[fuel] (initState start_url)).results

/-- The condition the same-domain filter guarantees for an enqueued link:
its URL parses, its scheme is http or https, and its domain equals the base
domain by exact string match. -/
def itemOkB (E : WebEnv) (base_domain : String) (it : CrawlItem) : Bool :=
  match E.parse it.url with
  | some parsed =>
    decide ((parsed.scheme = "http" ∨ parsed.scheme = "https")
      ∧ parsed.domain = some base_domain)
  | none => false

/-- Split a character list at the first occurrence of a nonempty pattern,
returning the parts before and after it. -/
def charsSplitOnce : List Char → List Char → Option (List Char × List Char)
  | [], pat => if pat.isEmpty then some ([], []) else none
  | c :: s, pat =>
    if charsLeadWith (c :: s) pat then
      some ([], (c :: s).drop pat.length)
    else
      (charsSplitOnce s pat).map (fun p => (c :: p.1, p.2))

/-- A valid URL scheme for the mini model: nonempty and alphabetic. -/
def schemeOk (sch : List Char) : Bool :=
  !sch.isEmpty && sch.all (fun c => c.isAlpha)

/-- Keep everything up to and including the last slash of a path. -/
def keepThroughLastSlash (l : List Char) : List Char :=
  ((l.reverse.dropWhile (fun c => c != '/')).reverse)

/-- Url::parse of the url crate, as a small executable model adequate for
the concrete strings used below and agreeing with the crate's documented
WHATWG behavior on them: the scheme is lowercased; a URL with an authority
and an empty path serializes with path "/" (compare the repository's own
test test_resolve_absolute_link, which expects "https://other.com" to
round-trip to "https://other.com/"); scheme-only references such as
mailto: carry no domain; relative references (no valid scheme) fail. -/
def miniParse (s : String) : Option MUrl :=
  match charsSplitOnce s.data (':' :: '/' :: '/' :: []) with
  | some (sch, rest) =>
    if schemeOk sch then
      let domain := rest.takeWhile (fun c => c != '/' && c != '?' && c != '#')
      let tail := rest.drop domain.length
      if domain.isEmpty then
        none
      else
        some { scheme := String.mk (sch.map Char.toLower),
               domain := some (String.mk domain),
               tail := String.mk (if tail.isEmpty then ['/'] else tail) }
    else
      none
  | none =>
    match charsSplitOnce s.data [':'] with
    | some (sch, rest) =>
      if schemeOk sch then
        some { scheme := String.mk (sch.map Char.toLower), domain := none,
               tail := String.mk rest }
      else
        none
    | none => none

/-- Url::join of the url crate, as a small executable model adequate for
the concrete strings used below: an absolute reference is parsed on its
own; a fragment-only reference replaces the base fragment; a path-absolute
reference replaces the base path; any other relative reference resolves in
the directory of the base path. -/
def miniJoin (base : MUrl) (href : String) : Option MUrl :=
  match miniParse href with
  | some u => some u
  | none =>
    if strStarts href "#" then
      some { base with tail := String.mk (base.tail.data.takeWhile (fun c => c != '#')
        ++ href.data) }
    else if strStarts href "/" then
      some { base with tail := href }
    else if href = "" then
      some base
    else
      some { base with tail := String.mk (keepThroughLastSlash
        (base.tail.data.takeWhile (fun c => c != '?' && c != '#')) ++ href.data) }

/-- Url::to_string of the url crate for the mini model. -/
def miniToStr (u : MUrl) : String :=
  match u.domain with
  | some d => u.scheme ++ "://" ++ d ++ u.tail
  | none => u.scheme ++ ":" ++ u.tail

/-- A simplistic model of the scraper href extraction, adequate for the
concrete documents used below: the value of every href="..." attribute,
in document order. -/
def miniHrefs (html : String) : List String :=
  hrefsChars html.data
where
  hrefsChars : List Char → List String
    | [] => []
    | c :: s =>
      if charsLeadWith (c :: s) ('h' :: 'r' :: 'e' :: 'f' :: '=' :: '"' :: []) then
        String.mk (((c :: s).drop 6).takeWhile (fun ch => ch != '"')) :: hrefsChars s
      else
        hrefsChars s

/-- The seed page of the concrete test site: one same-domain link and one
link to a different domain. -/
def pageA : String :=
  "<a href=\"/docs\">Docs</a><a href=\"https://other.com/x\">Other</a>"

/-- The second page of the concrete test site, with no links. -/
def pageB : String :=
  "<p>done</p>"

/-- A concrete fetch oracle: the test site has pages at
https://example.com and https://example.com/docs, nothing else. -/
def miniFetch (u : String) : Option String :=
  if u = "https://example.com" then some pageA
  else if u = "https://example.com/docs" then some pageB
  else none

/-- The concrete environment: the test site plus the mini url model. -/
def miniEnv : WebEnv :=
  { fetch := miniFetch, hrefs := miniHrefs, parse := miniParse,
    join := miniJoin, toStr := miniToStr }

/-- On an empty queue, one loop iteration is the identity. -/
theorem crawl_step_of_queue_nil (E : WebEnv) (bd : String) (md : Nat) (s : CrawlState)
    (h : s.queue = []) : crawl_step E bd md s = s := by
  obtain ⟨q, v, r, t⟩ := s
  dsimp only at h
  subst h
  rfl

/-- On an empty queue, any number of loop iterations is the identity. -/
theorem crawl_iterate_of_queue_nil (E : WebEnv) (bd : String) (md : Nat) (n : Nat)
    (s : CrawlState) (h : s.queue = []) : (crawl_step E bd md)^[n] s = s := by
  induction n with
  | zero => rfl
  | succ n ih => rw [Function.iterate_succ_apply, crawl_step_of_queue_nil E bd md s h, ih]

/-- Every link produced by extract_same_domain_links parses with scheme
http or https and with domain equal to base_domain. -/
theorem mem_extract_same_domain_links (E : WebEnv) (html page_url base_domain l : String)
    (h : l ∈ extract_same_domain_links E html page_url base_domain) :
    ∃ parsed, E.parse l = some parsed ∧
      (parsed.scheme = "http" ∨ parsed.scheme = "https") ∧
      parsed.domain = some base_domain := by
  unfold extract_same_domain_links at h
  cases hp : E.parse page_url with
  | none =>
    rw [hp] at h
    simp at h
  | some base =>
    rw [hp] at h
    obtain ⟨href, _, heq⟩ := List.mem_filterMap.1 h
    obtain ⟨a, _, hg⟩ := Option.bind_eq_some.1 heq
    cases hpa : E.parse a with
    | none =>
      rw [hpa] at hg
      simp at hg
    | some parsed =>
      rw [hpa] at hg
      dsimp only at hg
      split_ifs at hg with hcond
      · injection hg with hal
        subst hal
        exact ⟨parsed, hpa, hcond.1, hcond.2⟩

/-- Every link produced by extract_same_domain_links satisfies the
same-domain condition, at any depth. -/
theorem itemOkB_of_mem_extract (E : WebEnv) (html page_url base_domain l : String)
    (d : Nat) (h : l ∈ extract_same_domain_links E html page_url base_domain) :
    itemOkB E base_domain { url := l, depth := d } = true := by
  obtain ⟨parsed, hp, hs, hd⟩ := mem_extract_same_domain_links E html page_url base_domain l h
  unfold itemOkB
  dsimp only
  rw [hp]
  exact decide_eq_true ⟨hs, hd⟩

/-- Crawl invariant for C4: every item in the queue, and every item ever
popped, either is the seed or satisfies the same-domain condition. -/
def DomInvariant (E : WebEnv) (bd start : String) (s : CrawlState) : Prop :=
  (∀ it ∈ s.queue, it.url = start ∨ itemOkB E bd it = true) ∧
  (∀ it ∈ s.trace, it.url = start ∨ itemOkB E bd it = true)

/-- One loop iteration preserves the domain-restriction invariant. -/
theorem domInvariant_step (E : WebEnv) (bd start : String) (md : Nat) (s : CrawlState)
    (h : DomInvariant E bd start s) : DomInvariant E bd start (crawl_step E bd md s) := by
  obtain ⟨q, v, r, t⟩ := s
  obtain ⟨hq, ht⟩ := h
  dsimp only at hq ht
  cases q with
  | nil => exact ⟨hq, ht⟩
  | cons item rest =>
    have hqrest : ∀ it ∈ rest, it.url = start ∨ itemOkB E bd it = true :=
      fun it hit => hq it (List.mem_cons_of_mem _ hit)
    have hitem : item.url = start ∨ itemOkB E bd item = true :=
      hq item (List.mem_cons_self _ _)
    have htrace : ∀ it ∈ t ++ [item], it.url = start ∨ itemOkB E bd it = true := by
      intro it hit
      rcases List.mem_append.1 hit with hit | hit
      · exact ht it hit
      · rw [List.mem_singleton.1 hit]
        exact hitem
    simp only [crawl_step]
    by_cases hv : item.url ∈ v
    · rw [if_pos hv]
      exact ⟨hqrest, htrace⟩
    · rw [if_neg hv]
      cases hf : E.fetch item.url with
      | some html =>
        dsimp only
        refine ⟨?_, htrace⟩
        by_cases hdep : item.depth < md
        · rw [if_pos hdep]
          intro it hit
          rcases List.mem_append.1 hit with hit | hit
          · exact hqrest it hit
          · obtain ⟨l, hl, rfl⟩ := List.mem_map.1 hit
            exact Or.inr (itemOkB_of_mem_extract E html item.url bd l _
              (List.mem_filter.1 hl).1)
        · rw [if_neg hdep]
          exact hqrest
      | none => exact ⟨hqrest, htrace⟩

/-- C4: domain restriction invariant of the crawl.  With base_domain the
domain of the parsed start URL, in every reachable state of the loop of
crawl_website every queued item other than the seed, and likewise every
item ever popped (hence fetched) other than the seed, has a URL that
parses with scheme http or https and with domain equal to base_domain by
exact string match; so a discovered link whose domain differs from the
seed domain is never enqueued and never fetched. -/
theorem crawl_queue_domain_restriction (E : WebEnv) (start bd : String) (u : MUrl)
    (md k : Nat) (hp : E.parse start = some u) (hd : u.domain = some bd) :
    (∀ it ∈ ((crawl_step E bd md)^[k] (initState start)).queue,
      it.url = start ∨ itemOkB E bd it = true) ∧
    (∀ it ∈ ((crawl_step E bd md)^[k] (initState start)).trace,
      it.url = start ∨ itemOkB E bd it = true) := by
  have h : DomInvariant E bd start ((crawl_step E bd md)^[k] (initState start)) := by
    induction k with
    | zero =>
      refine ⟨?_, ?_⟩
      · intro it hit
        rw [List.mem_singleton.1 hit]
        exact Or.inl rfl
      · intro it hit
        exact absurd hit (List.not_mem_nil it)
    | succ n ih =>
      rw [Function.iterate_succ_apply']
      exact domInvariant_step E bd start md _ ih
  exact h

/-- Witness for C4: one loop iteration on the concrete site has enqueued
exactly the same-domain /docs link and popped only the seed. -/
theorem crawl_queue_domain_restriction_witness :
    (∀ it ∈ ((crawl_step miniEnv "example.com" 2)^[1] (initState "https://example.com")).queue,
      it.url = "https://example.com" ∨ itemOkB miniEnv "example.com" it = true) ∧
    (∀ it ∈ ((crawl_step miniEnv "example.com" 2)^[1] (initState "https://example.com")).trace,
      it.url = "https://example.com" ∨ itemOkB miniEnv "example.com" it = true) :=
  crawl_queue_domain_restriction miniEnv "https://example.com" "example.com"
    { scheme := "https", domain := some "example.com", tail := "/" } 2 1 rfl rfl

/-- Crawl invariant for C5: the depths of the popped items followed by the
queued items are pairwise non-decreasing, and any two queued depths differ
by at most one. -/
def DepthInvariant (s : CrawlState) : Prop :=
  List.Pairwise (fun a b => a.depth ≤ b.depth) (s.trace ++ s.queue) ∧
  ∀ a ∈ s.queue, ∀ b ∈ s.queue, a.depth ≤ b.depth + 1

/-- One loop iteration preserves the depth invariant: the popped item moves
to the trace and any newly enqueued links sit one level deeper than it at
the back of the queue. -/
theorem depthInvariant_step (E : WebEnv) (bd : String) (md : Nat) (s : CrawlState)
    (h : DepthInvariant s) : DepthInvariant (crawl_step E bd md s) := by
  obtain ⟨q, v, r, t⟩ := s
  obtain ⟨h1, h2⟩ := h
  dsimp only at h1 h2
  cases q with
  | nil => exact ⟨h1, h2⟩
  | cons item rest =>
    have hskip : List.Pairwise (fun a b => a.depth ≤ b.depth) ((t ++ [item]) ++ rest) := by
      rw [List.append_assoc, List.singleton_append]
      exact h1
    have hrest2 : ∀ a ∈ rest, ∀ b ∈ rest, a.depth ≤ b.depth + 1 :=
      fun a ha b hb => h2 a (List.mem_cons_of_mem _ ha) b (List.mem_cons_of_mem _ hb)
    have htle : ∀ a ∈ t, a.depth ≤ item.depth :=
      fun a ha => (List.pairwise_append.1 h1).2.2 a ha item (List.mem_cons_self _ _)
    have hile : ∀ b ∈ rest, item.depth ≤ b.depth :=
      (List.pairwise_cons.1 (List.pairwise_append.1 h1).2.1).1
    have hup : ∀ a ∈ rest, a.depth ≤ item.depth + 1 :=
      fun a ha => h2 a (List.mem_cons_of_mem _ ha) item (List.mem_cons_self _ _)
    simp only [crawl_step]
    by_cases hv : item.url ∈ v
    · rw [if_pos hv]
      exact ⟨hskip, hrest2⟩
    · rw [if_neg hv]
      cases hf : E.fetch item.url with
      | some html =>
        dsimp only
        by_cases hdep : item.depth < md
        · rw [if_pos hdep]
          set news := ((extract_same_domain_links E html item.url bd).filter
            (fun l => !(decide (l ∈ item.url :: v)))).map
            (fun l => ({ url := l, depth := item.depth + 1 } : CrawlItem)) with hnews
          have hdnews : ∀ x ∈ news, x.depth = item.depth + 1 := by
            intro x hx
            obtain ⟨l, _, rfl⟩ := List.mem_map.1 hx
            rfl
          refine ⟨?_, ?_⟩
          · have heq : (t ++ [item]) ++ (rest ++ news) = (t ++ item :: rest) ++ news := by
              simp [List.append_assoc]
            rw [heq]
            refine List.pairwise_append.2 ⟨h1, ?_, ?_⟩
            · refine List.pairwise_of_forall_mem_list ?_
              intro a ha b hb
              rw [hdnews a ha, hdnews b hb]
            · intro a ha b hb
              rw [hdnews b hb]
              rcases List.mem_append.1 ha with ha | ha
              · have := htle a ha
                omega
              · rcases List.mem_cons.1 ha with rfl | ha
                · omega
                · have := hup a ha
                  omega
          · intro a ha b hb
            rcases List.mem_append.1 ha with ha | ha <;>
              rcases List.mem_append.1 hb with hb | hb
            · exact hrest2 a ha b hb
            · have := hup a ha
              have := hdnews b hb
              omega
            · have := hdnews a ha
              have := hile b hb
              omega
            · have := hdnews a ha
              have := hdnews b hb
              omega
        · rw [if_neg hdep]
          exact ⟨hskip, hrest2⟩
      | none => exact ⟨hskip, hrest2⟩

/-- C5: BFS layering.  In every run of the loop of crawl_website - the
queue being FIFO, the seed entering at depth 1, and discovered links
entering at the popped depth plus one - the depth fields of the dequeued
items form a non-decreasing sequence, so every page at depth d is dequeued
before any page at depth d + 1. -/
theorem crawl_dequeue_depths_monotone (E : WebEnv) (bd start : String) (md k : Nat) :
    List.Chain' (· ≤ ·)
      ((((crawl_step E bd md)^[k]) (initState start)).trace.map CrawlItem.depth) := by
  have h : DepthInvariant ((crawl_step E bd md)^[k] (initState start)) := by
    induction k with
    | zero =>
      refine ⟨?_, ?_⟩
      · simp [initState]
      · intro a ha b hb
        rw [List.mem_singleton.1 ha, List.mem_singleton.1 hb]
        exact Nat.le_succ 1
    | succ n ih =>
      rw [Function.iterate_succ_apply']
      exact depthInvariant_step E bd md _ ih
  have htr : List.Pairwise (fun a b => a.depth ≤ b.depth)
      ((crawl_step E bd md)^[k] (initState start)).trace :=
    (List.pairwise_append.1 h.1).1
  exact (List.pairwise_map.mpr htr).chain'

/-- Crawl invariant for C9: the result URLs are pairwise distinct and all
lie in the visited set. -/
def NodupInvariant (s : CrawlState) : Prop :=
  (s.results.map Prod.fst).Nodup ∧ ∀ u ∈ s.results.map Prod.fst, u ∈ s.visited

/-- One loop iteration preserves the nodup invariant: a result is recorded
only for a URL that was absent from visited and is inserted into it in the
same iteration. -/
theorem nodupInvariant_step (E : WebEnv) (bd : String) (md : Nat) (s : CrawlState)
    (h : NodupInvariant s) : NodupInvariant (crawl_step E bd md s) := by
  obtain ⟨q, v, r, t⟩ := s
  obtain ⟨h1, h2⟩ := h
  dsimp only at h1 h2
  cases q with
  | nil => exact ⟨h1, h2⟩
  | cons item rest =>
    simp only [crawl_step]
    by_cases hv : item.url ∈ v
    · rw [if_pos hv]
      exact ⟨h1, h2⟩
    · rw [if_neg hv]
      cases hf : E.fetch item.url with
      | some html =>
        dsimp only
        have hnotin : item.url ∉ r.map Prod.fst := fun hc => hv (h2 _ hc)
        refine ⟨?_, ?_⟩
        · rw [List.map_append]
          refine List.Nodup.append h1 (List.nodup_singleton _) ?_
          intro a ha hb
          rw [List.mem_singleton.1 hb] at ha
          exact hnotin ha
        · intro u hu
          rw [List.map_append] at hu
          rcases List.mem_append.1 hu with hu | hu
          · exact List.mem_cons_of_mem _ (h2 u hu)
          · rw [List.mem_singleton.1 hu]
            exact List.mem_cons_self _ _
      | none => exact ⟨h1, fun u hu => List.mem_cons_of_mem _ (h2 u hu)⟩

/-- C9: for every successful run of crawl_website the URLs of the returned
(url, content) pairs are pairwise distinct: a result is recorded only when
its URL first enters the visited set, so no URL appears twice even if it
was enqueued several times. -/
theorem crawl_results_nodup (E : WebEnv) (start : String) (md fuel : Nat)
    (rs : List (String × String)) (h : crawl_website E start md fuel = Except.ok rs) :
    (rs.map Prod.fst).Nodup := by
  unfold crawl_website at h
  cases hp : E.parse start with
  | none =>
    rw [hp] at h
    simp at h
  | some u =>
    rw [hp] at h
    dsimp only at h
    cases hd : u.domain with
    | none =>
      rw [hd] at h
      simp at h
    | some bd =>
      rw [hd] at h
      dsimp only at h
      have hinv : ∀ n, NodupInvariant ((crawl_step E bd md)^[n] (initState start)) := by
        intro n
        induction n with
        | zero =>
          exact ⟨List.nodup_nil, fun u hu => absurd hu (List.not_mem_nil u)⟩
        | succ n ih =>
          rw [Function.iterate_succ_apply']
          exact nodupInvariant_step E bd md _ ih
      injection h with h'
      rw [← h']
      exact (hinv fuel).1

/-- Witness for C9: the concrete two-page crawl returns distinct URLs. -/
theorem crawl_results_nodup_witness :
    (([("https://example.com", pageA), ("https://example.com/docs", pageB)] :
      List (String × String)).map Prod.fst).Nodup :=
  crawl_results_nodup miniEnv "https://example.com" 2 5
    [("https://example.com", pageA), ("https://example.com/docs", pageB)] rfl

/-- C10: crawling with max_depth 0 returns exactly the same value as
crawling with max_depth 1, for every start URL and every fuel: the seed is
dequeued and fetched regardless of the depth limit, and in both cases
1 < max_depth fails, so no expansion occurs; depth 0 yields neither an
empty result nor an error when depth 1 does not. -/
theorem crawl_depth_zero_eq_depth_one (E : WebEnv) (start : String) (fuel : Nat) :
    crawl_website E start 0 fuel = crawl_website E start 1 fuel := by
  unfold crawl_website
  cases hp : E.parse start with
  | none => rfl
  | some u =>
    dsimp only
    cases hd : u.domain with
    | none => rfl
    | some bd =>
      dsimp only
      cases fuel with
      | zero => rfl
      | succ j =>
        rw [Function.iterate_succ_apply, Function.iterate_succ_apply]
        have hstep : crawl_step E bd 0 (initState start) = crawl_step E bd 1 (initState start) ∧
            (crawl_step E bd 1 (initState start)).queue = [] := by
          simp only [crawl_step, initState]
          dsimp only
          rw [if_neg (show (start : String) ∉ ([] : List String) from by simp)]
          cases hf : E.fetch start with
          | some html =>
            dsimp only
            rw [if_neg (by decide : ¬ ((1 : Nat) < 0)), if_neg (by decide : ¬ ((1 : Nat) < 1))]
            exact ⟨rfl, rfl⟩
          | none => exact ⟨rfl, rfl⟩
        rw [hstep.1, crawl_iterate_of_queue_nil E bd 0 j _ hstep.2,
          crawl_iterate_of_queue_nil E bd 1 j _ hstep.2]

/-- With max_depth 1, every reachable loop state is either the initial
state or has an empty queue: the seed is processed without expansion. -/
theorem crawl_depth_one_states (E : WebEnv) (bd start : String) (k : Nat) :
    (crawl_step E bd 1)^[k] (initState start) = initState start ∨
    ((crawl_step E bd 1)^[k] (initState start)).queue = [] := by
  induction k with
  | zero => exact Or.inl rfl
  | succ n ih =>
    rw [Function.iterate_succ_apply']
    rcases ih with h | h
    · rw [h]
      right
      simp only [crawl_step, initState]
      dsimp only
      rw [if_neg (show (start : String) ∉ ([] : List String) from by simp)]
      cases hf : E.fetch start with
      | some html =>
        dsimp only
        rw [if_neg (by decide : ¬ ((1 : Nat) < 1))]
      | none => rfl
    · right
      rw [crawl_step_of_queue_nil E bd 1 _ h]
      exact h

/-- C6 (amended): for every start URL that parses with a resolvable domain
and max_depth 1, the crawl result has length 0 or 1 - it is exactly
[(start, html)] when the seed fetch succeeds and [] when it fails - and no
expansion ever occurs: every reachable queue contains at most the seed
item.  The recorded URL is the start URL string exactly as passed; the
code does not normalize it (amends the claim, which asserts the normalized
start URL). -/
theorem crawl_maxdepth_one_seed_only (E : WebEnv) (start : String) (u : MUrl)
    (bd : String) (fuel : Nat) (hp : E.parse start = some u) (hd : u.domain = some bd)
    (hf : 1 ≤ fuel) :
    crawl_website E start 1 fuel =
      Except.ok (match E.fetch start with
        | some html => [(start, html)]
        | none => []) ∧
    (∀ k, ∀ it ∈ ((crawl_step E bd 1)^[k] (initState start)).queue,
      it = { url := start, depth := 1 }) := by
  constructor
  · unfold crawl_website
    rw [hp]
    dsimp only
    rw [hd]
    dsimp only
    obtain ⟨j, rfl⟩ : ∃ j, fuel = j + 1 := ⟨fuel - 1, by omega⟩
    rw [Function.iterate_succ_apply]
    have hstep : crawl_step E bd 1 (initState start) =
        match E.fetch start with
        | some html =>
          { queue := [], visited := [start], results := [(start, html)],
            trace := [{ url := start, depth := 1 }] }
        | none =>
          { queue := [], visited := [start], results := [],
            trace := [{ url := start, depth := 1 }] } := by
      simp only [crawl_step, initState]
      dsimp only
      rw [if_neg (show (start : String) ∉ ([] : List String) from by simp)]
      cases hfe : E.fetch start with
      | some html =>
        dsimp only
        rw [if_neg (by decide : ¬ ((1 : Nat) < 1))]
        rfl
      | none => rfl
    rw [hstep]
    cases hfe : E.fetch start with
    | some html =>
      rw [crawl_iterate_of_queue_nil E bd 1 j _ rfl]
    | none =>
      rw [crawl_iterate_of_queue_nil E bd 1 j _ rfl]
  · intro k it hit
    rcases crawl_depth_one_states E bd start k with h | h
    · rw [h] at hit
      exact List.mem_singleton.1 hit
    · rw [h] at hit
      exact absurd hit (List.not_mem_nil it)

/-- Witness for C6 (amended) on the concrete site: a successful depth-1
crawl returns exactly the seed with its raw URL. -/
theorem crawl_maxdepth_one_seed_only_witness :
    crawl_website miniEnv "https://example.com" 1 3 =
      Except.ok (match miniEnv.fetch "https://example.com" with
        | some html => [("https://example.com", html)]
        | none => []) ∧
    (∀ k, ∀ it ∈ ((crawl_step miniEnv "example.com" 1)^[k]
        (initState "https://example.com")).queue,
      it = { url := "https://example.com", depth := 1 }) :=
  crawl_maxdepth_one_seed_only miniEnv "https://example.com"
    { scheme := "https", domain := some "example.com", tail := "/" } "example.com" 3
    rfl rfl (by decide)

/-- Counterexample to C6 as stated: in the concrete model the depth-1
crawl of "https://example.com" succeeds and returns the raw start string
"https://example.com", while the normalized start URL - the parse of the
start URL serialized back, as the repository's own test
test_resolve_absolute_link documents for "https://other.com" - is
"https://example.com/", a different string.  So the single returned URL
equals the raw start URL, not the normalized one. -/
theorem crawl_result_url_not_normalized :
    crawl_website miniEnv "https://example.com" 1 3 =
      Except.ok [("https://example.com", pageA)] ∧
    (miniParse "https://example.com").map miniToStr = some "https://example.com/" ∧
    ("https://example.com" : String) ≠ "https://example.com/" :=
  ⟨rfl, rfl, by decide⟩

/-- C7 (amended): the crawler's resolve_link returns none for every href
beginning with "#", "mailto:", "tel:" or "javascript:", so such an href is
never enqueued; the HTML extractor extract_html_links keeps exactly the
resolved URLs that start with "http://" or "https://", which filters out
mailto:, tel: and javascript: hrefs, but a fragment-only href resolves
against the base URL and is kept as the base URL with that fragment
(amends the claim, which asserts that extract_html_links also drops
fragment-only hrefs). -/
theorem resolve_skip_and_extract_scheme_filter :
    (∀ (E : WebEnv) (base : MUrl) (href : String),
      (strStarts href "#" || strStarts href "mailto:" || strStarts href "tel:"
        || strStarts href "javascript:") = true →
      resolve_link E base href = none) ∧
    (∀ (E : WebEnv) (html base_url u : String),
      u ∈ extract_html_links E html base_url →
      (strStarts u "http://" || strStarts u "https://") = true) := by
  constructor
  · intro E base href h
    unfold resolve_link
    rw [if_pos h]
  · intro E html base_url u hu
    unfold extract_html_links at hu
    cases hp : E.parse base_url with
    | none =>
      rw [hp] at hu
      simp at hu
    | some base =>
      rw [hp] at hu
      obtain ⟨href, _, heq⟩ := List.mem_filterMap.1 hu
      obtain ⟨a, _, hg⟩ := Option.bind_eq_some.1 heq
      by_cases hc : is_checkable_link a = true
      · rw [if_pos hc] at hg
        injection hg with hau
        subst hau
        exact hc
      · rw [if_neg hc] at hg
        exact absurd hg (by simp)

/-- Witness for C7 (amended): a javascript: href is skipped by
resolve_link, and the URL that the fragment href "#section" contributes to
extract_html_links on the concrete page starts with https://. -/
theorem resolve_skip_and_extract_scheme_filter_witness :
    resolve_link miniEnv { scheme := "https", domain := some "example.com", tail := "/page" }
      "javascript:void(0)" = none ∧
    (strStarts "https://example.com/page#section" "http://"
      || strStarts "https://example.com/page#section" "https://") = true :=
  ⟨resolve_skip_and_extract_scheme_filter.1 miniEnv
      { scheme := "https", domain := some "example.com", tail := "/page" }
      "javascript:void(0)" (by decide),
   resolve_skip_and_extract_scheme_filter.2 miniEnv "<a href=\"#section\">S</a>"
      "https://example.com/page" "https://example.com/page#section" (by decide)⟩

/-- Counterexample to C7 as stated: the fragment-only href "#section" does
contribute a URL to extract_html_links - the base URL with the fragment -
because resolve_url joins it against the base and the result starts with
https://, so the is_checkable_link filter keeps it. -/
theorem extract_html_links_keeps_fragment :
    strStarts "#section" "#" = true ∧
    extract_html_links miniEnv "<a href=\"#section\">S</a>" "https://example.com/page" =
      ["https://example.com/page#section"] :=
  ⟨rfl, rfl⟩

/-- C8 (amended): resolution is idempotent on absolute hrefs whose
serialization the guard does not block.  For resolve_url: if the href
parses on its own and its serialization re-parses to the same value (the
url crate round trip), resolving twice gives the same result.  For
resolve_link: the same holds provided neither the href nor its
serialization begins with "#", "mailto:", "tel:" or "javascript:" (amends
the claim: an absolute href such as "MAILTO:alice@example.com" resolves to
"mailto:alice@example.com", whose re-resolution the guard blocks). -/
theorem resolve_idempotent_on_guard_stable (E : WebEnv) (base : MUrl)
    (href1 href2 : String) (w1 w2 : MUrl)
    (hp1 : E.parse href1 = some w1)
    (hq1 : E.parse (E.toStr w1) = some w1)
    (hs2 : (strStarts href2 "#" || strStarts href2 "mailto:" || strStarts href2 "tel:"
      || strStarts href2 "javascript:") = false)
    (hj2 : E.join base href2 = some w2)
    (hs2' : (strStarts (E.toStr w2) "#" || strStarts (E.toStr w2) "mailto:"
      || strStarts (E.toStr w2) "tel:" || strStarts (E.toStr w2) "javascript:") = false)
    (hj2' : E.join base (E.toStr w2) = some w2) :
    (resolve_url E base href1 = some (E.toStr w1) ∧
      resolve_url E base (E.toStr w1) = some (E.toStr w1)) ∧
    (resolve_link E base href2 = some (E.toStr w2) ∧
      resolve_link E base (E.toStr w2) = some (E.toStr w2)) := by
  refine ⟨⟨?_, ?_⟩, ?_, ?_⟩
  · unfold resolve_url
    rw [hp1]
  · unfold resolve_url
    rw [hq1]
  · unfold resolve_link
    rw [if_neg (by simp [hs2]), hj2]
    rfl
  · unfold resolve_link
    rw [if_neg (by simp [hs2']), hj2']
    rfl

/-- Witness for C8 (amended) on the repository's own test input: resolving
the absolute href "https://other.com" against https://example.com/page
yields "https://other.com/" both times, for both resolvers. -/
theorem resolve_idempotent_on_guard_stable_witness :
    (resolve_url miniEnv { scheme := "https", domain := some "example.com", tail := "/page" }
        "https://other.com" = some "https://other.com/" ∧
      resolve_url miniEnv { scheme := "https", domain := some "example.com", tail := "/page" }
        "https://other.com/" = some "https://other.com/") ∧
    (resolve_link miniEnv { scheme := "https", domain := some "example.com", tail := "/page" }
        "https://other.com" = some "https://other.com/" ∧
      resolve_link miniEnv { scheme := "https", domain := some "example.com", tail := "/page" }
        "https://other.com/" = some "https://other.com/") :=
  resolve_idempotent_on_guard_stable miniEnv
    { scheme := "https", domain := some "example.com", tail := "/page" }
    "https://other.com" "https://other.com"
    { scheme := "https", domain := some "other.com", tail := "/" }
    { scheme := "https", domain := some "other.com", tail := "/" }
    rfl rfl (by decide) rfl (by decide) rfl

/-- Counterexample to C8 as stated: the href "MAILTO:alice@example.com" is
already absolute (it parses, with the scheme lowercased as the url crate
does), and resolve_link resolves it to "mailto:alice@example.com"; but
resolving that result against the same base yields none, not the result
itself, because the guard now matches the lowercased "mailto:" prefix.  So
resolve(base, resolve(base, href)) differs from resolve(base, href). -/
theorem resolve_link_uppercase_scheme_cex :
    miniParse "MAILTO:alice@example.com" =
      some { scheme := "mailto", domain := none, tail := "alice@example.com" } ∧
    resolve_link miniEnv { scheme := "https", domain := some "example.com", tail := "/page" }
      "MAILTO:alice@example.com" = some "mailto:alice@example.com" ∧
    resolve_link miniEnv { scheme := "https", domain := some "example.com", tail := "/page" }
      "mailto:alice@example.com" = none :=
  ⟨rfl, rfl, rfl⟩
